import Mathlib

/-!
Verification of the letta agent step engine, tool-rule solver interface,
streaming accumulator and response normalizer against their specification.

The definitions below are a shallow embedding of the Python sources:

- letta/agents/letta_agent.py (step, _handle_ai_response, _rebuild_memory,
  _execute_tool)
- letta/interfaces/anthropic_streaming_interface.py
  (AnthropicStreamingInterface.process, _check_inner_thoughts_complete)
- letta/llm_api/anthropic_client.py (remap_finish_reason)

Components of the repository that are not part of the provided sources
(the ToolRulesSolver, the optimistic JSON parser, message-construction and
system-compilation helpers, library constants) are modelled from the
specification; each such definition carries a doc comment saying so.
-/

namespace LettaVerif

/-- Decidable equality for error-or-value results, so that concrete runs of
the embedded functions can be checked by decide. -/
instance exceptDecEq {ε α : Type} [DecidableEq ε] [DecidableEq α] :
    DecidableEq (Except ε α) := fun x y =>
  match x, y with
  | .error a, .error b =>
    if h : a = b then .isTrue (by rw [h])
    else .isFalse (fun hh => h (Except.error.inj hh))
  | .error _, .ok _ => .isFalse (fun hh => Except.noConfusion hh)
  | .ok _, .error _ => .isFalse (fun hh => Except.noConfusion hh)
  | .ok a, .ok b =>
    if h : a = b then .isTrue (by rw [h])
    else .isFalse (fun hh => h (Except.ok.inj hh))

/-- Shallow model of a JSON value as produced by json.loads for the value
positions the step engine inspects (booleans, strings, numbers, null).
Container values never influence the embedded control flow, so they are
omitted from the model. -/
inductive JValue
| jbool (b : Bool)
| jstr (s : String)
| jint (n : Int)
| jnull
deriving Repr, DecidableEq

/-- A parsed JSON object: association list from keys to values, modelling a
Python dict (keys unique). -/
abbrev ArgMap : Type := List (String × JValue)

/-- Python dict lookup with a default: d.get(k, default). -/
def argGet (m : ArgMap) (k : String) (dflt : JValue) : JValue :=
  match m.find? (fun p => p.1 == k) with
  | some p => p.2
  | none => dflt

/-- Python dict pop with a default: returns d.pop(k, default) together with
the dictionary with key k removed. -/
def popArg (m : ArgMap) (k : String) (dflt : JValue) : JValue × ArgMap :=
  (argGet m k dflt, m.filter (fun p => !(p.1 == k)))

/-- Coercion of the request_heartbeat argument to Bool, from
_handle_ai_response: a bool is kept; a string compares case-insensitively
against "true"; any other value goes through Python bool() truthiness. -/
def coerceHeartbeat (v : JValue) : Bool :=
  match v with
  | .jbool b => b
  | .jstr s => s.toLower == "true"
  | .jint n => n != 0
  | .jnull => false

/-- Modelled from the spec: the ToolRule tagged variants of section 3 that
the step-loop claims exercise (the tool-rule schema module is not among the
provided sources). -/
inductive ToolRule
| initRule (tool_name : String)
| childRule (tool_name : String) (children : List String)
| conditionalRule (tool_name : String) (default_child : Option String)
    (output_mapping : List (String × String))
| terminalRule (tool_name : String)
| continueRule (tool_name : String)
| requiredBeforeExitRule (tool_name : String)
deriving Repr, DecidableEq

/-- Modelled from the spec: ToolRulesSolver state (rule set plus the call
history of the current turn); the solver module is not among the provided
sources. -/
structure ToolRulesSolver where
  rules : List ToolRule
  call_history : List String
deriving Repr, DecidableEq

/-- Whether some TerminalTool rule names the given tool. -/
def hasTerminalRule (rules : List ToolRule) (n : String) : Bool :=
  rules.any fun r =>
    match r with
    | .terminalRule m => m == n
    | _ => false

/-- Whether some ChildTool rule names the given tool (the tool has declared
children). -/
def hasChildRule (rules : List ToolRule) (n : String) : Bool :=
  rules.any fun r =>
    match r with
    | .childRule m _ => m == n
    | _ => false

/-- Whether some ContinueTool rule names the given tool. -/
def hasContinueRule (rules : List ToolRule) (n : String) : Bool :=
  rules.any fun r =>
    match r with
    | .continueRule m => m == n
    | _ => false

/-- The tools named by RequiredBeforeExit rules. -/
def requiredBeforeExitNames (rules : List ToolRule) : List String :=
  rules.filterMap fun r =>
    match r with
    | .requiredBeforeExitRule m => some m
    | _ => none

/-- Modelled from the spec: register_call appends the call to the history of
the current turn. -/
def registerToolCall (s : ToolRulesSolver) (n : String) : ToolRulesSolver :=
  ⟨s.rules, s.call_history ++ [n]⟩

/-- Modelled from the spec: the solver stop check invoked by
_handle_ai_response on the just-registered tool. Per section 4.1, must_stop
is true iff the last-called tool has a TerminalTool rule and every
RequiredBeforeExit tool has been called at least once in this turn's
history; a terminal tool called before its required predecessors does not
yet permit stopping. -/
def isTerminalTool (s : ToolRulesSolver) (n : String) : Bool :=
  hasTerminalRule s.rules n &&
    (requiredBeforeExitNames s.rules).all (fun m => s.call_history.contains m)

/-- Modelled from the spec: whether the named tool has declared children. -/
def hasChildrenTools (s : ToolRulesSolver) (n : String) : Bool :=
  hasChildRule s.rules n

/-- Modelled from the spec: whether the named tool has a ContinueTool rule. -/
def isContinueTool (s : ToolRulesSolver) (n : String) : Bool :=
  hasContinueRule s.rules n

/-- The tool types relevant to the agent loop, from letta/orm/enums.py usage
within the provided sources. -/
inductive ToolType
| custom
| lettaCore
| lettaMultiAgentCore
| lettaMemoryCore
deriving Repr, DecidableEq

/-- An agent tool as seen by _execute_tool: a name and a type. -/
structure Tool where
  name : String
  tool_type : ToolType
deriving Repr, DecidableEq

/-- The external tool-execution machinery invoked inside the try block of
_execute_tool (the ToolExecutionManager path and the multi-agent broadcast
path). A Python exception raised there is modelled as an error value. -/
structure ExternalExec where
  run : String → ArgMap → Except String String

/-- Embedding of LettaAgent._execute_tool: looks the tool up among the
agent's tools, returning a not-found failure when absent; otherwise invokes
the external machinery, catching any exception and formatting it into an
error string with a false success flag. -/
def executeTool (tools : List Tool) (ex : ExternalExec) (tool_name : String)
    (tool_args : ArgMap) : String × Bool :=
  match tools.find? (fun t => t.name == tool_name) with
  | none => ("Tool not found: " ++ tool_name, false)
  | some _ =>
    match ex.run tool_name tool_args with
    | .ok function_response => (function_response, true)
    | .error e => ("Failed to call tool. Error: " ++ e, false)

/-- OpenAI-shape function payload of a tool call: name and raw JSON
argument string. -/
structure FunctionCall where
  name : String
  arguments : String
deriving Repr, DecidableEq

/-- OpenAI-shape tool call: optional id plus the function payload. -/
structure ToolCallItem where
  id : Option String
  function : FunctionCall
deriving Repr, DecidableEq

/-- The message of a chat-completion choice: optional tool-call list (None
models Python None, some [] an empty list). -/
structure ChoiceMessage where
  tool_calls : Option (List ToolCallItem)
deriving Repr, DecidableEq

/-- A chat-completion choice. -/
structure Choice where
  message : ChoiceMessage
deriving Repr, DecidableEq

/-- Token usage reported by the provider on a complete response. -/
structure ChatUsage where
  prompt_tokens : Nat
  completion_tokens : Nat
  total_tokens : Nat
deriving Repr, DecidableEq

/-- A (normalized) complete chat-completion response. -/
structure ChatCompletion where
  choices : List Choice
  usage : ChatUsage
deriving Repr, DecidableEq

/-- Persisted message records of one turn, as far as the step-loop claims
need them. -/
inductive PMessage
| userMsg (text : String)
| assistantToolCallMsg (name : String) (args : ArgMap) (tool_call_id : String)
| toolReturnMsg (tool_call_id : String) (result : String) (success : Bool)
| heartbeatSystemMsg
deriving Repr, DecidableEq

/-- Modelled from the spec: create_tool_call_messages_from_openai_response
is not among the provided sources; per section 4.4 step h it produces the
tool-call message, the tool-result message, and, when continuing, a
synthetic heartbeat-notice message. -/
def createToolCallMessages (name : String) (args : ArgMap) (tcid : String)
    (result : String) (success : Bool) (add_heartbeat : Bool) : List PMessage :=
  [PMessage.assistantToolCallMsg name args tcid,
   PMessage.toolReturnMsg tcid result success] ++
    (if add_heartbeat then [PMessage.heartbeatSystemMsg] else [])

/-- Environment of the step engine: the JSON parser (json.loads restricted
to objects, none modelling a JSONDecodeError), the external tool-execution
machinery, and the agent's tools. -/
structure AgentEnv where
  parseJson : String → Option ArgMap
  ex : ExternalExec
  tools : List Tool

/-- Result of _handle_ai_response: the messages persisted for the step, the
continue flag, the updated solver, and the trace of tool executions the
step performed. -/
structure HandleResult where
  persisted : List PMessage
  continue_stepping : Bool
  solver : ToolRulesSolver
  executed : List (String × ArgMap)
deriving Repr, DecidableEq

/-- Embedding of LettaAgent._handle_ai_response. The unguarded indexing
choices[0].message.tool_calls[0] is modelled by error results (the Python
IndexError / TypeError); JSON argument parsing falls back to the empty map
on failure; request_heartbeat is popped and coerced; the single (first)
tool call is executed, registered with the solver, and the continue flag is
resolved terminal-first; finally the step's messages are produced. -/
def handleAIResponse (env : AgentEnv) (resp : ChatCompletion)
    (solver : ToolRulesSolver) : Except String HandleResult :=
  match resp.choices.head? with
  | none => .error "IndexError: list index out of range (choices)"
  | some choice =>
    match choice.message.tool_calls with
    | none => .error "TypeError: NoneType object is not subscriptable"
    | some tcs =>
      match tcs.head? with
      | none => .error "IndexError: list index out of range (tool_calls)"
      | some tool_call =>
        let tool_call_name := tool_call.function.name
        let tool_call_args_str := tool_call.function.arguments
        let parsed := env.parseJson tool_call_args_str
        let tool_args0 : ArgMap := parsed.getD []
        let rh := popArg tool_args0 "request_heartbeat" (JValue.jbool false)
        let request_heartbeat := coerceHeartbeat rh.1
        let tool_args := rh.2
        let tool_call_id := tool_call.id.getD "call_generated"
        let execOut := executeTool env.tools env.ex tool_call_name tool_args
        let solver1 := registerToolCall solver tool_call_name
        let continue_stepping :=
          if isTerminalTool solver1 tool_call_name then false
          else if hasChildrenTools solver1 tool_call_name then true
          else if isContinueTool solver1 tool_call_name then true
          else request_heartbeat
        let msgs := createToolCallMessages tool_call_name tool_args
          tool_call_id execOut.1 execOut.2 continue_stepping
        .ok ⟨msgs, continue_stepping, solver1, [(tool_call_name, tool_args)]⟩

/-- Caller-facing usage statistics, from letta/schemas/usage.py usage at the
call site in step (the schema module is not among the provided sources; all
counters default to zero, which is what the bare constructor call in step
produces). -/
structure LettaUsageStatistics where
  completion_tokens : Nat
  prompt_tokens : Nat
  total_tokens : Nat
deriving Repr, DecidableEq

/-- The zero usage record produced by the bare LettaUsageStatistics()
constructor call in step. -/
def emptyUsage : LettaUsageStatistics := ⟨0, 0, 0⟩

/-- Caller-facing message type; its internal shape is irrelevant to the
claims, only the translation from persisted messages matters. -/
structure LMessage where
  payload : String
deriving Repr, DecidableEq

/-- The caller-facing response of step: translated messages plus usage. -/
structure LettaResponse where
  messages : List LMessage
  usage : LettaUsageStatistics
deriving Repr, DecidableEq

/-- Environment of the full step loop: the step-engine environment, the LLM
(a function from the in-context window to the next complete response,
modelling _get_ai_reply), and the per-message translation applied at the
end of step (an abstraction of Message.to_letta_message). -/
structure StepEnv where
  agent : AgentEnv
  llm : List PMessage → ChatCompletion
  toLetta : PMessage → List LMessage

/-- Embedding of the loop body of step: up to the given number of
iterations, call the LLM on the system window plus the accumulated
persisted messages, handle the response, extend the accumulated messages,
and stop when the continue flag is false. Returns the accumulated
persisted messages and the final solver. -/
def stepLoop (env : StepEnv) (system_msgs : List PMessage) :
    Nat → ToolRulesSolver → List PMessage →
    Except String (List PMessage × ToolRulesSolver)
| 0, solver, acc => .ok (acc, solver)
| n + 1, solver, acc =>
  let resp := env.llm (system_msgs ++ acc)
  match handleAIResponse env.agent resp solver with
  | .error e => .error e
  | .ok r =>
    let acc2 := acc ++ r.persisted
    if r.continue_stepping then stepLoop env system_msgs n r.solver acc2
    else .ok (acc2, r.solver)

/-- Embedding of LettaAgent.step: persist the inbound user message, build a
fresh solver from the agent's rules, run the loop up to max_steps, then
translate every accumulated persisted message and return the response with
the bare (unpopulated) usage-statistics constructor, exactly as the source
does. -/
def step (env : StepEnv) (agent_rules : List ToolRule) (input_message : String)
    (system_msgs : List PMessage) (max_steps : Nat) :
    Except String LettaResponse :=
  let persisted0 : List PMessage := [PMessage.userMsg input_message]
  let solver0 : ToolRulesSolver := ⟨agent_rules, []⟩
  match stepLoop env system_msgs max_steps solver0 persisted0 with
  | .error e => .error e
  | .ok out => .ok ⟨out.1.flatMap env.toLetta, emptyUsage⟩

/-- An in-context message for the memory-rebuild step: an id and the text of
its first content segment (the only parts _rebuild_memory touches). -/
structure SysMessage where
  id : Nat
  text : String
deriving Repr, DecidableEq

/-- Python substring containment (needle in haystack), as a decidable test
on the underlying character lists. -/
def strContains (haystack needle : String) : Bool :=
  decide (needle.toList <:+: haystack.toList)

/-- Modelled from the spec: united_diff (letta/utils.py, not among the
provided sources) produces a nonempty diff exactly when the two texts
differ. -/
def unitedDiffNonempty (a b : String) : Bool := !(a == b)

/-- Embedding of LettaAgent._rebuild_memory. Parameters curr_memory_str and
new_system_message_str stand for the results of the external calls
agent_state.memory.compile() and compile_system_message(...) (the latter is
not among the provided sources). If the compiled memory is contained in the
current system text the window is returned unchanged; otherwise, when the
newly compiled system text differs from the current one, the persisted
replacement is substituted at position 0 with the tail kept as is; when it
does not differ the window is again returned unchanged. An empty window is
a Python IndexError. -/
def rebuildMemory (curr_memory_str : String) (new_system_message_str : String)
    (in_context_messages : List SysMessage) :
    Except String (List SysMessage) :=
  match in_context_messages with
  | [] => .error "IndexError: list index out of range"
  | curr :: rest =>
    if strContains curr.text curr_memory_str then
      .ok (curr :: rest)
    else
      if unitedDiffNonempty curr.text new_system_message_str then
        .ok (⟨curr.id, new_system_message_str⟩ :: rest)
      else
        .ok (curr :: rest)

/-- Embedding of remap_finish_reason from letta/llm_api/anthropic_client.py:
remaps Anthropic stop reasons onto OpenAI finish reasons, raising ValueError
on anything unexpected. -/
def remapFinishReason (stop_reason : String) : Except String String :=
  if stop_reason == "end_turn" then .ok "stop"
  else if stop_reason == "stop_sequence" then .ok "stop"
  else if stop_reason == "max_tokens" then .ok "length"
  else if stop_reason == "tool_use" then .ok "function_call"
  else .error ("Unexpected stop_reason: " ++ stop_reason)

/-- Modelled from the spec: INNER_THOUGHTS_KWARG, the designated
inner-thoughts argument key (letta/local_llm/constants.py is not among the
provided sources). -/
def INNER_THOUGHTS_KWARG : String := "inner_thoughts"

/-- Modelled from the spec: DEFAULT_MESSAGE_TOOL, the canonical
send-message tool name (letta/constants.py is not among the provided
sources). -/
def DEFAULT_MESSAGE_TOOL : String := "send_message"

/-- Modelled from the spec: DEFAULT_MESSAGE_TOOL_KWARG, the designated
message-content key of the send-message tool. -/
def DEFAULT_MESSAGE_TOOL_KWARG : String := "message"

/-- The accumulator modes of the streaming interface (EventMode). -/
inductive EventMode
| text
| toolUse
| thinking
| redactedThinking
deriving Repr, DecidableEq

/-- The content-block payload of a raw content-block-start event. -/
inductive ContentBlock
| textBlock
| toolUseBlock (id : String) (name : String)
| thinkingBlock
| redactedThinkingBlock (data : String)
deriving Repr, DecidableEq

/-- The delta payload of a raw content-block-delta event. -/
inductive DeltaEvent
| textDelta (text : String)
| inputJSONDelta (fragment : String)
| thinkingDelta (thinking : String)
| signatureDelta (signature : String)
deriving Repr, DecidableEq

/-- The raw Anthropic stream events consumed by process. -/
inductive StreamEvent
| contentBlockStart (content : ContentBlock)
| contentBlockDelta (delta : DeltaEvent)
| messageStart (input_tokens : Nat) (output_tokens : Nat)
| messageDelta (output_tokens : Nat)
| messageStop
| contentBlockStop
deriving Repr, DecidableEq

/-- The tool-call delta payload carried by an emitted ToolCallMessage:
either the announcement (name and id) or an argument fragment. -/
structure ToolCallDelta where
  name : Option String
  tool_call_id : Option String
  arguments : Option String
deriving Repr, DecidableEq

/-- The typed messages the accumulator emits. -/
inductive StreamMessage
| hiddenReasoningMessage (hidden : String)
| reasoningMessage (from_reasoner : Bool) (reasoning : String)
    (signature : Option String)
| toolCallMessage (delta : ToolCallDelta)
| assistantMessage (text : String)
deriving Repr, DecidableEq

/-- Whether an emitted message is a tool-call event. -/
def isToolCallEvent : StreamMessage → Bool
| .toolCallMessage _ => true
| _ => false

/-- The result of the best-effort incremental JSON parse: the top-level
keys recovered so far, with their (string) values. -/
abbrev ParseObj : Type := List (String × String)

/-- Python dict get with empty-string default on a parse result. -/
def parseGet (p : ParseObj) (k : String) : String :=
  match p.find? (fun q => q.1 == k) with
  | some q => q.2
  | none => ""

/-- Configuration of one streaming-accumulator instance: the two
constructor flags, plus the incremental JSON parser. The parser is
modelled from the spec (OptimisticJSONParser is not among the provided
sources): a tolerant parse returning whatever top-level keys are
unambiguously parseable so far. -/
structure StreamConfig where
  use_assistant_message : Bool
  put_inner_thoughts_in_kwarg : Bool
  parse : String → ParseObj

/-- Embedding of _check_inner_thoughts_complete: without the
inner-thoughts-in-kwarg setting nothing has inner thoughts in kwargs and
the check is vacuously true; otherwise the combined arguments are parsed
and the heuristic requires more than one top-level key with the
inner-thoughts key among them. -/
def checkInnerThoughtsComplete (cfg : StreamConfig) (combined_args : String) :
    Bool :=
  if !cfg.put_inner_thoughts_in_kwarg then true
  else
    let parsed := cfg.parse combined_args
    decide (parsed.length > 1) && parsed.any (fun q => q.1 == INNER_THOUGHTS_KWARG)

/-- The per-response mutable state of the streaming accumulator. -/
structure StreamState where
  anthropic_mode : Option EventMode
  accumulated_inner_thoughts : List String
  tool_call_id : Option String
  tool_call_name : Option String
  accumulated_tool_call_args : List String
  previous_parse : ParseObj
  input_tokens : Nat
  output_tokens : Nat
  reasoning_messages : List StreamMessage
  tool_call_buffer : List StreamMessage
  inner_thoughts_complete : Bool
deriving Repr, DecidableEq

/-- The freshly constructed accumulator state. -/
def initStreamState : StreamState :=
  ⟨none, [], none, none, [], [], 0, 0, [], [], false⟩

/-- The body of the tool-use JSON-delta branch of process, reached when the
mode check passed: accumulate the fragment, reparse, emit the inner-thoughts
diff, flush the buffer the instant the completeness heuristic flips, then
emit or buffer the argument delta (or stream assistant-message content in
the send-message shortcut case), and finally store the parse. -/
def processJSONDelta (cfg : StreamConfig) (s : StreamState) (fragment : String) :
    StreamState × List StreamMessage :=
  let args2 := s.accumulated_tool_call_args ++ [fragment]
  let combined_args := String.join args2
  let current_parsed := cfg.parse combined_args
  let previous_inner_thoughts := parseGet s.previous_parse INNER_THOUGHTS_KWARG
  let current_inner_thoughts := parseGet current_parsed INNER_THOUGHTS_KWARG
  let inner_thoughts_diff := current_inner_thoughts.drop previous_inner_thoughts.length
  let rmsgs : List StreamMessage :=
    if inner_thoughts_diff != "" then
      [StreamMessage.reasoningMessage false inner_thoughts_diff none]
    else []
  let flips := !s.inner_thoughts_complete && checkInnerThoughtsComplete cfg combined_args
  let complete2 := if flips then true else s.inner_thoughts_complete
  let emits2 : List StreamMessage := if flips then s.tool_call_buffer else []
  let buffer1 : List StreamMessage := if flips then [] else s.tool_call_buffer
  let isSendMessageCase :=
    s.tool_call_name == some DEFAULT_MESSAGE_TOOL && cfg.use_assistant_message
  let emits3 : List StreamMessage :=
    if isSendMessageCase then
      let previous_send := parseGet s.previous_parse DEFAULT_MESSAGE_TOOL_KWARG
      let current_send := parseGet current_parsed DEFAULT_MESSAGE_TOOL_KWARG
      let send_message_diff := current_send.drop previous_send.length
      if send_message_diff != "" then
        [StreamMessage.assistantMessage send_message_diff]
      else []
    else
      if complete2 then [StreamMessage.toolCallMessage ⟨none, none, some fragment⟩]
      else []
  let buffer2 : List StreamMessage :=
    if isSendMessageCase then buffer1
    else
      if complete2 then buffer1
      else buffer1 ++ [StreamMessage.toolCallMessage ⟨none, none, some fragment⟩]
  ({ s with
    accumulated_tool_call_args := args2,
    previous_parse := current_parsed,
    inner_thoughts_complete := complete2,
    tool_call_buffer := buffer2,
    reasoning_messages := s.reasoning_messages ++ rmsgs },
    rmsgs ++ emits2 ++ emits3)

/-- Embedding of one iteration of AnthropicStreamingInterface.process:
consumes one raw stream event, returning the updated state and the
messages yielded for that event, or an error for the protocol-integrity
RuntimeError raises. -/
def processEvent (cfg : StreamConfig) (s : StreamState) :
    StreamEvent → Except String (StreamState × List StreamMessage)
| .contentBlockStart content =>
  match content with
  | .textBlock => .ok ({ s with anthropic_mode := some EventMode.text }, [])
  | .toolUseBlock id name =>
    let s1 := { s with
      anthropic_mode := some EventMode.toolUse,
      tool_call_id := some id,
      tool_call_name := some name,
      inner_thoughts_complete := false }
    if !cfg.use_assistant_message then
      let tool_call_msg := StreamMessage.toolCallMessage ⟨some name, some id, none⟩
      .ok ({ s1 with tool_call_buffer := s1.tool_call_buffer ++ [tool_call_msg] }, [])
    else
      .ok (s1, [])
  | .thinkingBlock => .ok ({ s with anthropic_mode := some EventMode.thinking }, [])
  | .redactedThinkingBlock data =>
    let msg := StreamMessage.hiddenReasoningMessage data
    .ok ({ s with
      anthropic_mode := some EventMode.redactedThinking,
      reasoning_messages := s.reasoning_messages ++ [msg] }, [msg])
| .contentBlockDelta delta =>
  match delta with
  | .textDelta t =>
    if s.anthropic_mode != some EventMode.text then
      .error "Streaming integrity failed - received BetaTextDelta object while not in TEXT EventMode"
    else
      let t2 := t.replace "</thinking>" ""
      let msg := StreamMessage.reasoningMessage false t2 none
      .ok ({ s with
        accumulated_inner_thoughts := s.accumulated_inner_thoughts ++ [t2],
        reasoning_messages := s.reasoning_messages ++ [msg] }, [msg])
  | .inputJSONDelta fragment =>
    if s.anthropic_mode != some EventMode.toolUse then
      .error "Streaming integrity failed - received BetaInputJSONDelta object while not in TOOL_USE EventMode"
    else
      .ok (processJSONDelta cfg s fragment)
  | .thinkingDelta t =>
    if s.anthropic_mode != some EventMode.thinking then
      .error "Streaming integrity failed - received BetaThinkingBlock object while not in THINKING EventMode"
    else
      let msg := StreamMessage.reasoningMessage true t none
      .ok ({ s with reasoning_messages := s.reasoning_messages ++ [msg] }, [msg])
  | .signatureDelta sig =>
    if s.anthropic_mode != some EventMode.thinking then
      .error "Streaming integrity failed - received BetaSignatureDelta object while not in THINKING EventMode"
    else
      let msg := StreamMessage.reasoningMessage true "" (some sig)
      .ok ({ s with reasoning_messages := s.reasoning_messages ++ [msg] }, [msg])
| .messageStart itok otok =>
  .ok ({ s with
    input_tokens := s.input_tokens + itok,
    output_tokens := s.output_tokens + otok }, [])
| .messageDelta otok =>
  .ok ({ s with output_tokens := s.output_tokens + otok }, [])
| .messageStop => .ok (s, [])
| .contentBlockStop =>
  if s.anthropic_mode == some EventMode.toolUse && !s.tool_call_buffer.isEmpty then
    .ok ({ s with anthropic_mode := none, tool_call_buffer := [] },
      s.tool_call_buffer)
  else
    .ok ({ s with anthropic_mode := none }, [])

/-- Folding processEvent over a whole event sequence, concatenating the
emitted messages; an integrity error anywhere aborts the stream. -/
def processEvents (cfg : StreamConfig) (s : StreamState) :
    List StreamEvent → Except String (StreamState × List StreamMessage)
| [] => .ok (s, [])
| e :: rest =>
  (processEvent cfg s e).bind fun out =>
    (processEvents cfg out.1 rest).map fun out2 => (out2.1, out.2 ++ out2.2)

/-- The continue-stepping resolution of _handle_ai_response after the call
has been registered: start from the coerced request_heartbeat, force false
on the solver stop check, else force true on declared children or a
ContinueTool rule. -/
def continueSteppingFormula (solver1 : ToolRulesSolver) (n : String)
    (request_heartbeat : Bool) : Bool :=
  if isTerminalTool solver1 n then false
  else if hasChildrenTools solver1 n then true
  else if isContinueTool solver1 n then true
  else request_heartbeat

/-- The coerced request_heartbeat value extracted from a tool call by
_handle_ai_response: parse the arguments (empty map on failure), pop the
request_heartbeat key with default false, coerce to Bool. -/
def heartbeatOf (env : AgentEnv) (tc : ToolCallItem) : Bool :=
  coerceHeartbeat
    (argGet ((env.parseJson tc.function.arguments).getD [])
      "request_heartbeat" (JValue.jbool false))

/-- The tool-call id resolution of _handle_ai_response: the provider id, or
a generated fallback id when absent. -/
def tcIdOf (tc : ToolCallItem) : String :=
  tc.id.getD "call_generated"

/-- The closed form of the successful _handle_ai_response result on a
response carrying at least one tool call, stated with the named helper
projections; definitionally equal to the embedding. -/
def handleResultOf (env : AgentEnv) (tc : ToolCallItem)
    (solver : ToolRulesSolver) : HandleResult :=
  let tool_args :=
    (popArg ((env.parseJson tc.function.arguments).getD [])
      "request_heartbeat" (JValue.jbool false)).2
  let execOut := executeTool env.tools env.ex tc.function.name tool_args
  let solver1 := registerToolCall solver tc.function.name
  let cont := continueSteppingFormula solver1 tc.function.name (heartbeatOf env tc)
  ⟨createToolCallMessages tc.function.name tool_args (tcIdOf tc)
      execOut.1 execOut.2 cont,
    cont, solver1, [(tc.function.name, tool_args)]⟩

/-- The reasoning messages emitted by a JSON delta for the newly appeared
suffix of the inner-thoughts value (empty when there is no new suffix);
used to state lemmas about processJSONDelta. -/
def innerThoughtsDiffMsgs (cfg : StreamConfig) (s : StreamState)
    (fragment : String) : List StreamMessage :=
  let current_parsed :=
    cfg.parse (String.join (s.accumulated_tool_call_args ++ [fragment]))
  let d := (parseGet current_parsed INNER_THOUGHTS_KWARG).drop
    (parseGet s.previous_parse INNER_THOUGHTS_KWARG).length
  if d != "" then [StreamMessage.reasoningMessage false d none] else []

/-! ## Concrete instances used by witnesses -/

/-- A concrete incremental parser for witnesses: the combined string "ab"
parses to two keys including inner thoughts, the prefix "a" to the
inner-thoughts key alone, anything else to no keys. -/
def witParse : String → ParseObj := fun s =>
  if s == "ab" then [("inner_thoughts", "x"), ("other", "y")]
  else if s == "a" then [("inner_thoughts", "x")]
  else []

/-- A concrete accumulator configuration: raw tool-call deltas shown (no
assistant-message shortcut), inner thoughts in kwargs. -/
def witStreamConfig : StreamConfig := ⟨false, true, witParse⟩

/-- A concrete step-engine environment: every argument string parses to the
empty object, every tool execution succeeds with the result "done", and the
agent owns the single custom tool t. -/
def witAgentEnv : AgentEnv :=
  ⟨fun _ => some [], ⟨fun _ _ => Except.ok "done"⟩, [⟨"t", ToolType.custom⟩]⟩

/-- A concrete environment whose JSON parser always fails (malformed
arguments) and whose single tool foo succeeds on any arguments. -/
def malformedEnv : AgentEnv :=
  ⟨fun _ => none, ⟨fun _ _ => Except.ok "done"⟩, [⟨"foo", ToolType.custom⟩]⟩

/-- A concrete tool call naming tool t with trivial arguments. -/
def witToolCall : ToolCallItem := ⟨some "id1", ⟨"t", "x"⟩⟩

/-- A concrete rule set: t is terminal, requires r before exit, and also
carries a ContinueTool rule, so the terminal stop is gated on r having been
called. -/
def witSolver : ToolRulesSolver :=
  ⟨[ToolRule.terminalRule "t", ToolRule.requiredBeforeExitRule "r",
    ToolRule.continueRule "t"], []⟩

/-- A concrete full-step environment: the LLM always answers with one call
of tool t carrying nonzero token usage, and message translation drops
payloads. -/
def witStepEnv : StepEnv :=
  ⟨witAgentEnv, fun _ => ⟨[⟨⟨some [witToolCall]⟩⟩], ⟨5, 7, 12⟩⟩, fun _ => []⟩

/-- A concrete response with a tool-calls list that is present but empty. -/
def emptyToolCallsResp : ChatCompletion := ⟨[⟨⟨some []⟩⟩], ⟨1, 2, 3⟩⟩

/-- A concrete full-step environment whose LLM returns a response with an
empty tool-calls list. -/
def noToolCallStepEnv : StepEnv :=
  ⟨witAgentEnv, fun _ => emptyToolCallsResp, fun _ => []⟩

/-! ## Theorems -/

/-- Closed form of handleAIResponse on a response with at least one tool
call: the match chain reduces to the handleResultOf record. -/
theorem handleAIResponse_ok (env : AgentEnv) (tc : ToolCallItem)
    (rest : List ToolCallItem) (u : ChatUsage) (solver : ToolRulesSolver) :
    handleAIResponse env ⟨[⟨⟨some (tc :: rest)⟩⟩], u⟩ solver =
      Except.ok (handleResultOf env tc solver) := rfl

/-- C4 counterexample: the code maps the provider finish reason tool_use to
the string function_call, which differs from tool_call and is not a member
of the four-value canonical enum named by the claim. -/
theorem c4_counterexample :
    remapFinishReason "tool_use" = Except.ok "function_call" ∧
    remapFinishReason "tool_use" ≠ Except.ok "tool_call" ∧
    ¬("function_call" = "stop" ∨ "function_call" = "length" ∨
      "function_call" = "tool_call" ∨ "function_call" = "content_filter") := by
  refine ⟨rfl, ?_, ?_⟩ <;> decide

/-- C4 amended: remap_finish_reason maps end_turn and stop_sequence to
stop, max_tokens to length, and tool_use to function_call (OpenAI's legacy
name, not tool_call); every other stop reason raises a ValueError instead
of being mapped, and every successfully mapped result is one of stop,
length, function_call. -/
theorem c4_remap_finish_reason_amended :
    remapFinishReason "end_turn" = Except.ok "stop" ∧
    remapFinishReason "stop_sequence" = Except.ok "stop" ∧
    remapFinishReason "max_tokens" = Except.ok "length" ∧
    remapFinishReason "tool_use" = Except.ok "function_call" ∧
    (∀ r out, remapFinishReason r = Except.ok out →
      out = "stop" ∨ out = "length" ∨ out = "function_call") ∧
    (∀ r, r ≠ "end_turn" → r ≠ "stop_sequence" → r ≠ "max_tokens" →
      r ≠ "tool_use" →
      remapFinishReason r = Except.error ("Unexpected stop_reason: " ++ r)) := by
  refine ⟨rfl, rfl, rfl, rfl, ?_, ?_⟩
  · intro r out h
    unfold remapFinishReason at h
    split_ifs at h <;> simp_all
  · intro r h1 h2 h3 h4
    unfold remapFinishReason
    split_ifs with g1 g2 g3 g4
    · exact absurd (by simpa using g1) h1
    · exact absurd (by simpa using g2) h2
    · exact absurd (by simpa using g3) h3
    · exact absurd (by simpa using g4) h4
    · rfl

/-- C4 witness: the amended theorem applied at the concrete inputs stop
(successfully mapped) and bogus (raising). -/
theorem c4_witness :
    ("stop" = "stop" ∨ "stop" = "length" ∨ "stop" = "function_call") ∧
    remapFinishReason "bogus" = Except.error ("Unexpected stop_reason: " ++ "bogus") :=
  ⟨c4_remap_finish_reason_amended.2.2.2.2.1 "end_turn" "stop" (by decide),
   c4_remap_finish_reason_amended.2.2.2.2.2 "bogus" (by decide) (by decide)
     (by decide) (by decide)⟩

/-- The inner-thoughts diff messages contain no tool-call events. -/
theorem innerThoughtsDiffMsgs_no_tool_call (cfg : StreamConfig)
    (s : StreamState) (f : String) :
    (innerThoughtsDiffMsgs cfg s f).filter isToolCallEvent = [] := by
  simp only [innerThoughtsDiffMsgs]
  split <;> simp [isToolCallEvent]

/-- A list of argument-fragment tool-call messages is untouched by the
tool-call-event filter. -/
theorem filter_toolCallMsgs (l : List String) :
    (l.map (fun f => StreamMessage.toolCallMessage ⟨none, none, some f⟩)).filter
        isToolCallEvent =
      l.map (fun f => StreamMessage.toolCallMessage ⟨none, none, some f⟩) := by
  induction l with
  | nil => rfl
  | cons a l ih => simp [isToolCallEvent, ih]

/-- Entering a tool-use block with the assistant-message shortcut off:
capture the id and name, reset completeness, and buffer (not emit) the
announcement. -/
theorem processEvent_toolUseStart (cfg : StreamConfig) (id name : String)
    (s : StreamState) (hassist : cfg.use_assistant_message = false) :
    processEvent cfg s
      (StreamEvent.contentBlockStart (ContentBlock.toolUseBlock id name)) =
      Except.ok ({ s with
        anthropic_mode := some EventMode.toolUse,
        tool_call_id := some id,
        tool_call_name := some name,
        inner_thoughts_complete := false,
        tool_call_buffer := s.tool_call_buffer ++
          [StreamMessage.toolCallMessage ⟨some name, some id, none⟩] }, []) := by
  simp [processEvent, hassist]

/-- A JSON delta in tool-use mode runs processJSONDelta. -/
theorem processEvent_json (cfg : StreamConfig) (s : StreamState) (f : String)
    (hmode : s.anthropic_mode = some EventMode.toolUse) :
    processEvent cfg s
      (StreamEvent.contentBlockDelta (DeltaEvent.inputJSONDelta f)) =
      Except.ok (processJSONDelta cfg s f) := by
  simp [processEvent, hmode]

/-- A block stop with an empty tool-call buffer only resets the mode. -/
theorem processEvent_stop_empty_buffer (cfg : StreamConfig) (s : StreamState)
    (hbuf : s.tool_call_buffer = []) :
    processEvent cfg s StreamEvent.contentBlockStop =
      Except.ok ({ s with anthropic_mode := none }, []) := by
  simp [processEvent, hbuf]

/-- A JSON delta while inner thoughts are incomplete and the completeness
check still fails: the argument delta is buffered, nothing but the
inner-thoughts diff is emitted, and completeness stays false. -/
theorem processJSONDelta_buffering (cfg : StreamConfig) (s : StreamState)
    (f : String)
    (hassist : cfg.use_assistant_message = false)
    (hnc : s.inner_thoughts_complete = false)
    (hck : checkInnerThoughtsComplete cfg
      (String.join (s.accumulated_tool_call_args ++ [f])) = false) :
    processJSONDelta cfg s f =
      ({ s with
        accumulated_tool_call_args := s.accumulated_tool_call_args ++ [f],
        previous_parse :=
          cfg.parse (String.join (s.accumulated_tool_call_args ++ [f])),
        inner_thoughts_complete := false,
        tool_call_buffer := s.tool_call_buffer ++
          [StreamMessage.toolCallMessage ⟨none, none, some f⟩],
        reasoning_messages :=
          s.reasoning_messages ++ innerThoughtsDiffMsgs cfg s f },
        innerThoughtsDiffMsgs cfg s f) := by
  unfold processJSONDelta innerThoughtsDiffMsgs
  simp [hassist, hnc, hck]

/-- A JSON delta while inner thoughts are incomplete whose accumulated
arguments now pass the completeness check: the whole buffer is flushed in
FIFO order after the inner-thoughts diff, the fragment's own event is
emitted immediately after it, the buffer empties, and completeness flips. -/
theorem processJSONDelta_flip (cfg : StreamConfig) (s : StreamState)
    (f : String)
    (hassist : cfg.use_assistant_message = false)
    (hnc : s.inner_thoughts_complete = false)
    (hck : checkInnerThoughtsComplete cfg
      (String.join (s.accumulated_tool_call_args ++ [f])) = true) :
    processJSONDelta cfg s f =
      ({ s with
        accumulated_tool_call_args := s.accumulated_tool_call_args ++ [f],
        previous_parse :=
          cfg.parse (String.join (s.accumulated_tool_call_args ++ [f])),
        inner_thoughts_complete := true,
        tool_call_buffer := [],
        reasoning_messages :=
          s.reasoning_messages ++ innerThoughtsDiffMsgs cfg s f },
        innerThoughtsDiffMsgs cfg s f ++ s.tool_call_buffer ++
          [StreamMessage.toolCallMessage ⟨none, none, some f⟩]) := by
  unfold processJSONDelta innerThoughtsDiffMsgs
  simp [hassist, hnc, hck]

/-- Unfolding one successful step of the event fold. -/
theorem processEvents_cons_ok (cfg : StreamConfig) (s s1 s2 : StreamState)
    (e : StreamEvent) (rest : List StreamEvent)
    (out1 out2 : List StreamMessage)
    (h1 : processEvent cfg s e = Except.ok (s1, out1))
    (h2 : processEvents cfg s1 rest = Except.ok (s2, out2)) :
    processEvents cfg s (e :: rest) = Except.ok (s2, out1 ++ out2) := by
  simp [processEvents, h1, h2, Except.bind, Except.map]

/-- Splitting a successful event fold across an append. -/
theorem processEvents_append_ok (cfg : StreamConfig) (l1 l2 : List StreamEvent) :
    ∀ (s s1 s2 : StreamState) (out1 out2 : List StreamMessage),
    processEvents cfg s l1 = Except.ok (s1, out1) →
    processEvents cfg s1 l2 = Except.ok (s2, out2) →
    processEvents cfg s (l1 ++ l2) = Except.ok (s2, out1 ++ out2) := by
  induction l1 with
  | nil =>
    intro s s1 s2 out1 out2 h1 h2
    simp only [processEvents] at h1
    obtain ⟨hs, ho⟩ := Prod.ext_iff.mp (Except.ok.inj h1)
    dsimp only at hs ho
    subst hs
    subst ho
    simpa using h2
  | cons e l1 ih =>
    intro s s1 s2 out1 out2 h1 h2
    rw [List.cons_append]
    rcases he : processEvent cfg s e with err | p
    · rw [processEvents, he] at h1
      simp [Except.bind] at h1
    · rw [processEvents, he] at h1
      simp only [Except.bind] at h1
      rcases hrest : processEvents cfg p.1 l1 with err2 | q
      · rw [hrest] at h1
        simp [Except.map] at h1
      · rw [hrest] at h1
        simp only [Except.map] at h1
        obtain ⟨hq, ho⟩ := Prod.ext_iff.mp (Except.ok.inj h1)
        dsimp only at hq ho
        have hmain := ih p.1 q.1 s2 q.2 out2 (by rw [hrest]) (by rw [hq]; exact h2)
        rw [processEvents, he]
        simp only [Except.bind]
        rw [hmain]
        simp only [Except.map]
        rw [← ho, List.append_assoc]

/-- Invariant of the buffering phase: processing a run of JSON deltas none
of whose accumulated prefixes passes the completeness check keeps the mode,
keeps completeness false, appends the fragments to the accumulated
arguments, appends one buffered tool-call event per fragment in arrival
order, and emits no tool-call event at all. -/
theorem processEvents_deltas_buffering (cfg : StreamConfig) (gs : List String) :
    ∀ s : StreamState,
    s.anthropic_mode = some EventMode.toolUse →
    s.inner_thoughts_complete = false →
    cfg.use_assistant_message = false →
    (∀ i, 0 < i → i ≤ gs.length →
      checkInnerThoughtsComplete cfg
        (String.join (s.accumulated_tool_call_args ++ gs.take i)) = false) →
    ∃ s2 out,
      processEvents cfg s
        (gs.map (fun f => StreamEvent.contentBlockDelta (DeltaEvent.inputJSONDelta f))) =
        Except.ok (s2, out) ∧
      s2.anthropic_mode = some EventMode.toolUse ∧
      s2.inner_thoughts_complete = false ∧
      s2.accumulated_tool_call_args = s.accumulated_tool_call_args ++ gs ∧
      s2.tool_call_buffer = s.tool_call_buffer ++
        gs.map (fun f => StreamMessage.toolCallMessage ⟨none, none, some f⟩) ∧
      out.filter isToolCallEvent = [] := by
  induction gs with
  | nil =>
    intro s hmode hnc hassist hpre
    exact ⟨s, [], rfl, hmode, hnc, by simp, by simp, rfl⟩
  | cons g gs ih =>
    intro s hmode hnc hassist hpre
    have hck : checkInnerThoughtsComplete cfg
        (String.join (s.accumulated_tool_call_args ++ [g])) = false := by
      have h := hpre 1 (by omega) (by simp)
      simpa using h
    have hstep := processJSONDelta_buffering cfg s g hassist hnc hck
    have he1 := processEvent_json cfg s g hmode
    rw [hstep] at he1
    obtain ⟨s2, out, heq, h1, h2, h3, h4, h5⟩ := ih
      { s with
        accumulated_tool_call_args := s.accumulated_tool_call_args ++ [g],
        previous_parse :=
          cfg.parse (String.join (s.accumulated_tool_call_args ++ [g])),
        inner_thoughts_complete := false,
        tool_call_buffer := s.tool_call_buffer ++
          [StreamMessage.toolCallMessage ⟨none, none, some g⟩],
        reasoning_messages :=
          s.reasoning_messages ++ innerThoughtsDiffMsgs cfg s g }
      hmode rfl hassist
      (by
        intro i hi hle
        have h := hpre (i + 1) (by omega) (by simpa using hle)
        simpa [List.append_assoc] using h)
    refine ⟨s2, innerThoughtsDiffMsgs cfg s g ++ out, ?_, h1, h2, ?_, ?_, ?_⟩
    · rw [List.map_cons]
      exact processEvents_cons_ok cfg s _ s2 _ _ _ _ he1 heq
    · rw [h3]
      simp
    · rw [h4]
      simp
    · rw [List.filter_append, innerThoughtsDiffMsgs_no_tool_call, h5]
      rfl

/-- C2: in a tool-use stream (raw tool-call deltas shown) whose fragments
pass the inner-thoughts completeness heuristic only once the last fragment
has arrived, no tool-call event is emitted before that fragment; processing
the whole block emits the buffered announcement and every argument delta in
original arrival order with no reordering, duplication or drop, the last
fragment's event being emitted immediately, and the closing block-stop
flushing nothing further. -/
theorem c2_tool_call_buffering_order (cfg : StreamConfig) (id name : String)
    (gs : List String) (g : String)
    (hassist : cfg.use_assistant_message = false)
    (hpre : ∀ i, 0 < i → i ≤ gs.length →
      checkInnerThoughtsComplete cfg
        (String.join ((gs ++ [g]).take i)) = false)
    (hlast : checkInnerThoughtsComplete cfg (String.join (gs ++ [g])) = true) :
    (∃ s1 out1,
      processEvents cfg initStreamState
        (StreamEvent.contentBlockStart (ContentBlock.toolUseBlock id name) ::
          gs.map (fun f => StreamEvent.contentBlockDelta (DeltaEvent.inputJSONDelta f))) =
        Except.ok (s1, out1) ∧
      out1.filter isToolCallEvent = []) ∧
    (∃ s2 out2,
      processEvents cfg initStreamState
        (StreamEvent.contentBlockStart (ContentBlock.toolUseBlock id name) ::
          ((gs ++ [g]).map (fun f => StreamEvent.contentBlockDelta (DeltaEvent.inputJSONDelta f)) ++
            [StreamEvent.contentBlockStop])) =
        Except.ok (s2, out2) ∧
      out2.filter isToolCallEvent =
        StreamMessage.toolCallMessage ⟨some name, some id, none⟩ ::
          (gs ++ [g]).map (fun f => StreamMessage.toolCallMessage ⟨none, none, some f⟩)) := by
  have hstart := processEvent_toolUseStart cfg id name initStreamState hassist
  have hpre0 : ∀ i, 0 < i → i ≤ gs.length →
      checkInnerThoughtsComplete cfg (String.join ([] ++ gs.take i)) = false := by
    intro i hi hle
    have h := hpre i hi (by omega)
    rwa [List.take_append_of_le_length hle] at h
  obtain ⟨sB, outB, heqB, hB1, hB2, hB3, hB4, hB5⟩ :=
    processEvents_deltas_buffering cfg gs
      { initStreamState with
        anthropic_mode := some EventMode.toolUse,
        tool_call_id := some id,
        tool_call_name := some name,
        inner_thoughts_complete := false,
        tool_call_buffer :=
          [StreamMessage.toolCallMessage ⟨some name, some id, none⟩] }
      rfl rfl hassist hpre0
  constructor
  · refine ⟨sB, [] ++ outB, ?_, by simpa using hB5⟩
    exact processEvents_cons_ok cfg initStreamState _ sB _ _ _ _
      (by simpa using hstart) heqB
  · have hckB : checkInnerThoughtsComplete cfg
        (String.join (sB.accumulated_tool_call_args ++ [g])) = true := by
      rw [hB3]
      simpa using hlast
    have hflip := processJSONDelta_flip cfg sB g hassist hB2 hckB
    have heg := processEvent_json cfg sB g hB1
    rw [hflip] at heg
    set sE : StreamState :=
      { sB with
        accumulated_tool_call_args := sB.accumulated_tool_call_args ++ [g],
        previous_parse :=
          cfg.parse (String.join (sB.accumulated_tool_call_args ++ [g])),
        inner_thoughts_complete := true,
        tool_call_buffer := [],
        reasoning_messages :=
          sB.reasoning_messages ++ innerThoughtsDiffMsgs cfg sB g } with hsE
    set outE : List StreamMessage :=
      innerThoughtsDiffMsgs cfg sB g ++ sB.tool_call_buffer ++
        [StreamMessage.toolCallMessage ⟨none, none, some g⟩] with houtE
    set sF : StreamState := { sE with anthropic_mode := none } with hsF
    have hstop : processEvent cfg sE StreamEvent.contentBlockStop =
        Except.ok (sF, []) := processEvent_stop_empty_buffer cfg sE rfl
    have hnil : processEvents cfg sF [] = Except.ok (sF, []) := rfl
    have hstoplist := processEvents_cons_ok cfg sE sF sF
      StreamEvent.contentBlockStop [] [] [] hstop hnil
    have htail := processEvents_cons_ok cfg sB sE sF
      (StreamEvent.contentBlockDelta (DeltaEvent.inputJSONDelta g))
      [StreamEvent.contentBlockStop] outE ([] ++ []) heg hstoplist
    have hmid := processEvents_append_ok cfg
      (gs.map (fun f => StreamEvent.contentBlockDelta (DeltaEvent.inputJSONDelta f)))
      [StreamEvent.contentBlockDelta (DeltaEvent.inputJSONDelta g),
        StreamEvent.contentBlockStop]
      _ sB sF outB (outE ++ ([] ++ [])) heqB htail
    have hfull := processEvents_cons_ok cfg initStreamState _ sF _ _ []
      (outB ++ (outE ++ ([] ++ []))) (by simpa using hstart) hmid
    refine ⟨sF, [] ++ (outB ++ (outE ++ ([] ++ []))), ?_, ?_⟩
    · rw [List.map_append]
      simpa [List.append_assoc] using hfull
    · rw [houtE, hB4]
      simp only [List.filter_append, innerThoughtsDiffMsgs_no_tool_call,
        hB5, filter_toolCallMsgs, List.map_append, List.append_nil,
        List.nil_append]
      simp [isToolCallEvent]

/-- C2 witness: the theorem applied to the concrete two-fragment stream in
which only the full accumulated arguments pass the completeness heuristic;
the hypotheses are discharged by evaluation. -/
theorem c2_witness :
    (∃ s1 out1,
      processEvents witStreamConfig initStreamState
        (StreamEvent.contentBlockStart (ContentBlock.toolUseBlock "tid" "mytool") ::
          ["a"].map (fun f => StreamEvent.contentBlockDelta (DeltaEvent.inputJSONDelta f))) =
        Except.ok (s1, out1) ∧
      out1.filter isToolCallEvent = []) ∧
    (∃ s2 out2,
      processEvents witStreamConfig initStreamState
        (StreamEvent.contentBlockStart (ContentBlock.toolUseBlock "tid" "mytool") ::
          ((["a"] ++ ["b"]).map
              (fun f => StreamEvent.contentBlockDelta (DeltaEvent.inputJSONDelta f)) ++
            [StreamEvent.contentBlockStop])) =
        Except.ok (s2, out2) ∧
      out2.filter isToolCallEvent =
        StreamMessage.toolCallMessage ⟨some "mytool", some "tid", none⟩ ::
          (["a"] ++ ["b"]).map
            (fun f => StreamMessage.toolCallMessage ⟨none, none, some f⟩)) :=
  c2_tool_call_buffering_order witStreamConfig "tid" "mytool" ["a"] "b" rfl
    (by
      intro i h1 h2
      have hi : i = 1 := by
        simp only [List.length_cons, List.length_nil] at h2
        omega
      subst hi
      decide)
    (by decide)

/-- C5 amended: every content-block delta that arrives while the
accumulator mode is inconsistent with the delta kind raises the
protocol-integrity error, but a block-stop event never raises: in any mode,
including with no block open at all, it is accepted silently (flushing the
tool-call buffer when in tool-use mode). -/
theorem c5_mode_integrity (cfg : StreamConfig) (s : StreamState) :
    (∀ t, s.anthropic_mode ≠ some EventMode.text →
      ∃ e, processEvent cfg s
        (StreamEvent.contentBlockDelta (DeltaEvent.textDelta t)) = Except.error e) ∧
    (∀ f, s.anthropic_mode ≠ some EventMode.toolUse →
      ∃ e, processEvent cfg s
        (StreamEvent.contentBlockDelta (DeltaEvent.inputJSONDelta f)) = Except.error e) ∧
    (∀ t, s.anthropic_mode ≠ some EventMode.thinking →
      ∃ e, processEvent cfg s
        (StreamEvent.contentBlockDelta (DeltaEvent.thinkingDelta t)) = Except.error e) ∧
    (∀ g, s.anthropic_mode ≠ some EventMode.thinking →
      ∃ e, processEvent cfg s
        (StreamEvent.contentBlockDelta (DeltaEvent.signatureDelta g)) = Except.error e) ∧
    (∃ out, processEvent cfg s StreamEvent.contentBlockStop = Except.ok out) := by
  refine ⟨?_, ?_, ?_, ?_, ?_⟩
  · intro t h
    have hb : (s.anthropic_mode != some EventMode.text) = true := by
      simpa [bne_iff_ne] using h
    exact ⟨"Streaming integrity failed - received BetaTextDelta object while not in TEXT EventMode",
      by simp [processEvent, hb]⟩
  · intro f h
    have hb : (s.anthropic_mode != some EventMode.toolUse) = true := by
      simpa [bne_iff_ne] using h
    exact ⟨"Streaming integrity failed - received BetaInputJSONDelta object while not in TOOL_USE EventMode",
      by simp [processEvent, hb]⟩
  · intro t h
    have hb : (s.anthropic_mode != some EventMode.thinking) = true := by
      simpa [bne_iff_ne] using h
    exact ⟨"Streaming integrity failed - received BetaThinkingBlock object while not in THINKING EventMode",
      by simp [processEvent, hb]⟩
  · intro g h
    have hb : (s.anthropic_mode != some EventMode.thinking) = true := by
      simpa [bne_iff_ne] using h
    exact ⟨"Streaming integrity failed - received BetaSignatureDelta object while not in THINKING EventMode",
      by simp [processEvent, hb]⟩
  · unfold processEvent
    by_cases hb :
      (s.anthropic_mode == some EventMode.toolUse && !s.tool_call_buffer.isEmpty) = true
    · exact ⟨_, by rw [if_pos hb]⟩
    · exact ⟨_, by rw [if_neg hb]⟩

/-- C5 counterexample: a block-stop event arriving with no block open (the
initial state, mode none) is inconsistent with any open-block mode, yet the
accumulator accepts it silently with no emitted events instead of raising. -/
theorem c5_counterexample :
    initStreamState.anthropic_mode = none ∧
    processEvent witStreamConfig initStreamState StreamEvent.contentBlockStop =
      Except.ok (initStreamState, []) := by
  exact ⟨rfl, rfl⟩

/-- C5 witness: the amended theorem applied at the initial state, where a
text delta without an open text block raises. -/
theorem c5_witness :
    ∃ e, processEvent witStreamConfig initStreamState
      (StreamEvent.contentBlockDelta (DeltaEvent.textDelta "hi")) = Except.error e :=
  (c5_mode_integrity witStreamConfig initStreamState).1 "hi" (by decide)

/-- C7: the memory rebuild returns the in-context window unchanged whenever
the compiled memory string occurs verbatim in the current system text;
otherwise (given that the freshly compiled system text contains the
compiled memory block) it returns the window with exactly position 0
replaced by the rebuilt system message and the tail untouched. -/
theorem c7_rebuild_memory (mem newSys : String) (curr : SysMessage)
    (rest : List SysMessage)
    (hnew : strContains newSys mem = true) :
    (strContains curr.text mem = true →
      rebuildMemory mem newSys (curr :: rest) = Except.ok (curr :: rest)) ∧
    (strContains curr.text mem = false →
      rebuildMemory mem newSys (curr :: rest) =
        Except.ok (⟨curr.id, newSys⟩ :: rest)) := by
  constructor
  · intro hc
    simp [rebuildMemory, hc]
  · intro hc
    have hne : curr.text ≠ newSys := by
      intro he
      rw [he, hnew] at hc
      exact Bool.noConfusion hc
    simp [rebuildMemory, hc, unitedDiffNonempty, hne]

/-- C7 witness: the theorem applied at a concrete window whose system text
does not contain the memory block, so position 0 is replaced and the tail
kept. -/
theorem c7_witness :
    rebuildMemory "MEM" "sys MEM" [⟨0, "old text"⟩, ⟨1, "tail"⟩] =
      Except.ok [⟨0, "sys MEM"⟩, ⟨1, "tail"⟩] :=
  (c7_rebuild_memory "MEM" "sys MEM" ⟨0, "old text"⟩ [⟨1, "tail"⟩]
    (by decide)).2 (by decide)

/-- C8: handling a response consumes exactly the first tool call — the
result is identical for any tail of excess tool calls (and any usage
payload), exactly one execution happens, and the solver registers exactly
that one call. -/
theorem c8_first_tool_call_only (env : AgentEnv) (tc : ToolCallItem)
    (rest rest2 : List ToolCallItem) (u u2 : ChatUsage)
    (solver : ToolRulesSolver) :
    handleAIResponse env ⟨[⟨⟨some (tc :: rest)⟩⟩], u⟩ solver =
      handleAIResponse env ⟨[⟨⟨some (tc :: rest2)⟩⟩], u2⟩ solver ∧
    ∃ r, handleAIResponse env ⟨[⟨⟨some (tc :: rest)⟩⟩], u⟩ solver = Except.ok r ∧
      r.executed.length = 1 ∧
      (r.executed.map Prod.fst = [tc.function.name]) ∧
      r.solver.call_history = solver.call_history ++ [tc.function.name] := by
  exact ⟨rfl, ⟨_, rfl, rfl, rfl, rfl⟩⟩

/-- C10: a response whose first choice has a null or empty tool-calls list
makes the response handler fail with an exception (the unguarded index),
before any tool execution or persistence — and the failure propagates out
of the public step entry point. -/
theorem c10_no_tool_call_is_error (env : StepEnv) (cm : ChoiceMessage)
    (u : ChatUsage) (solver : ToolRulesSolver) (rules : List ToolRule)
    (input : String) (sys : List PMessage) (n : Nat)
    (hcm : cm.tool_calls = none ∨ cm.tool_calls = some [])
    (hllm : ∀ w, env.llm w = ⟨[⟨cm⟩], u⟩)
    (hn : 0 < n) :
    (∃ e, handleAIResponse env.agent ⟨[⟨cm⟩], u⟩ solver = Except.error e) ∧
    (∃ e, step env rules input sys n = Except.error e) := by
  have h1 : ∀ solver2 : ToolRulesSolver, ∃ e,
      handleAIResponse env.agent ⟨[⟨cm⟩], u⟩ solver2 = Except.error e := by
    intro solver2
    rcases hcm with h | h
    · exact ⟨"TypeError: NoneType object is not subscriptable",
        by simp [handleAIResponse, h]⟩
    · exact ⟨"IndexError: list index out of range (tool_calls)",
        by simp [handleAIResponse, h]⟩
  obtain ⟨m, rfl⟩ : ∃ m, n = m + 1 := ⟨n - 1, by omega⟩
  obtain ⟨e, he⟩ := h1 ⟨rules, []⟩
  exact ⟨h1 solver, ⟨e, by simp [step, stepLoop, hllm, he]⟩⟩

/-- C10 witness: the theorem applied at the concrete environment whose LLM
always answers with an empty tool-calls list. -/
theorem c10_witness :
    (∃ e, handleAIResponse noToolCallStepEnv.agent emptyToolCallsResp
      ⟨[], []⟩ = Except.error e) ∧
    (∃ e, step noToolCallStepEnv [] "hi" [] 3 = Except.error e) :=
  c10_no_tool_call_is_error noToolCallStepEnv ⟨some []⟩ ⟨1, 2, 3⟩ ⟨[], []⟩ []
    "hi" [] 3 (Or.inr rfl) (fun _ => rfl) (by decide)

/-- C9: in a concrete turn whose single LLM response reports nonzero token
usage and calls the terminal tool t, step succeeds but returns the bare
zero usage-statistics placeholder instead of the accumulated totals — the
code contradicts its own TODO to populate the usage. -/
theorem c9_usage_is_empty_placeholder :
    (witStepEnv.llm [PMessage.userMsg "hi"]).usage = ⟨5, 7, 12⟩ ∧
    step witStepEnv [ToolRule.terminalRule "t"] "hi" [] 10 =
      Except.ok ⟨[], emptyUsage⟩ ∧
    emptyUsage.prompt_tokens = 0 ∧ emptyUsage.completion_tokens = 0 ∧
    emptyUsage.total_tokens = 0 := by
  exact ⟨rfl, rfl, rfl, rfl, rfl⟩

/-- C3 counterexample: a tool call with malformed JSON arguments whose tool
then succeeds on the empty argument map persists a tool-result message with
success true, not success false as the claim states. -/
theorem c3_counterexample :
    malformedEnv.parseJson "not json" = none ∧
    handleAIResponse malformedEnv
      ⟨[⟨⟨some [⟨none, ⟨"foo", "not json"⟩⟩]⟩⟩], ⟨1, 2, 3⟩⟩ ⟨[], []⟩ =
      Except.ok ⟨[PMessage.assistantToolCallMsg "foo" [] "call_generated",
          PMessage.toolReturnMsg "call_generated" "done" true],
        false, ⟨[], ["foo"]⟩, [("foo", [])]⟩ := by
  exact ⟨rfl, rfl⟩

/-- C3 amended: a response whose tool call carries malformed JSON arguments
does not abort the step — the arguments default to the empty map, the tool
is still invoked on it, a tool-result message carrying the execution's
success flag (false exactly when the invocation fails) is persisted, and
the continue-stepping computation still runs. -/
theorem c3_malformed_args_contained (env : AgentEnv) (tc : ToolCallItem)
    (rest : List ToolCallItem) (u : ChatUsage) (solver : ToolRulesSolver)
    (hmal : env.parseJson tc.function.arguments = none) :
    ∃ r, handleAIResponse env ⟨[⟨⟨some (tc :: rest)⟩⟩], u⟩ solver = Except.ok r ∧
      r.executed = [(tc.function.name, [])] ∧
      r.persisted = createToolCallMessages tc.function.name [] (tcIdOf tc)
        (executeTool env.tools env.ex tc.function.name []).1
        (executeTool env.tools env.ex tc.function.name []).2
        r.continue_stepping ∧
      r.continue_stepping =
        continueSteppingFormula (registerToolCall solver tc.function.name)
          tc.function.name false := by
  refine ⟨handleResultOf env tc solver,
    handleAIResponse_ok env tc rest u solver, ?_, ?_, ?_⟩ <;>
    simp [handleResultOf, hmal, popArg, argGet, heartbeatOf, coerceHeartbeat]

/-- C3 witness: the amended theorem applied at the concrete environment
with a failing parser; the hypothesis is discharged by evaluation. -/
theorem c3_witness :
    ∃ r, handleAIResponse malformedEnv
      ⟨[⟨⟨some [⟨none, ⟨"foo", "not json"⟩⟩]⟩⟩], ⟨1, 2, 3⟩⟩ ⟨[], []⟩ =
      Except.ok r ∧
      r.executed = [("foo", [])] ∧
      r.persisted = createToolCallMessages "foo" []
        (tcIdOf ⟨none, ⟨"foo", "not json"⟩⟩)
        (executeTool malformedEnv.tools malformedEnv.ex "foo" []).1
        (executeTool malformedEnv.tools malformedEnv.ex "foo" []).2
        r.continue_stepping ∧
      r.continue_stepping =
        continueSteppingFormula (registerToolCall ⟨[], []⟩ "foo") "foo" false :=
  c3_malformed_args_contained malformedEnv ⟨none, ⟨"foo", "not json"⟩⟩ []
    ⟨1, 2, 3⟩ ⟨[], []⟩ rfl

/-- Case analysis of the continue-stepping resolution: the stop check
forces false with top precedence; children or ContinueTool force true when
the stop check does not fire; otherwise the coerced heartbeat passes
through. -/
theorem continueSteppingFormula_cases (s1 : ToolRulesSolver) (n : String)
    (hb : Bool) :
    (isTerminalTool s1 n = true → continueSteppingFormula s1 n hb = false) ∧
    (isTerminalTool s1 n = false →
      (hasChildrenTools s1 n = true ∨ isContinueTool s1 n = true) →
      continueSteppingFormula s1 n hb = true) ∧
    (isTerminalTool s1 n = false → hasChildrenTools s1 n = false →
      isContinueTool s1 n = false → continueSteppingFormula s1 n hb = hb) := by
  unfold continueSteppingFormula
  refine ⟨fun h => by simp [h], fun h hc => ?_, fun h h2 h3 => by simp [h, h2, h3]⟩
  rcases hc with hc | hc <;> simp [h, hc]

/-- C1: after the tool call is registered, continue_stepping starts from
the coerced request_heartbeat, is forced false by the solver stop check
(terminal rule with every RequiredBeforeExit tool already called this
turn), is forced true by declared children or a ContinueTool rule, with the
stop check taking precedence; when the tool is terminal but some
RequiredBeforeExit tool has not yet been called, the stop check does not
fire and continuation forcing wins. -/
theorem c1_continue_stepping_resolution (env : AgentEnv) (tc : ToolCallItem)
    (rest : List ToolCallItem) (u : ChatUsage) (solver : ToolRulesSolver) :
    ∃ r, handleAIResponse env ⟨[⟨⟨some (tc :: rest)⟩⟩], u⟩ solver = Except.ok r ∧
      r.solver = registerToolCall solver tc.function.name ∧
      r.continue_stepping =
        continueSteppingFormula r.solver tc.function.name (heartbeatOf env tc) ∧
      (isTerminalTool r.solver tc.function.name = true →
        r.continue_stepping = false) ∧
      (isTerminalTool r.solver tc.function.name = false →
        (hasChildrenTools r.solver tc.function.name = true ∨
          isContinueTool r.solver tc.function.name = true) →
        r.continue_stepping = true) ∧
      (isTerminalTool r.solver tc.function.name = false →
        hasChildrenTools r.solver tc.function.name = false →
        isContinueTool r.solver tc.function.name = false →
        r.continue_stepping = heartbeatOf env tc) ∧
      (hasTerminalRule solver.rules tc.function.name = true →
        (requiredBeforeExitNames solver.rules).all
          (fun m => (solver.call_history ++ [tc.function.name]).contains m) = false →
        (hasChildrenTools r.solver tc.function.name = true ∨
          isContinueTool r.solver tc.function.name = true) →
        r.continue_stepping = true) := by
  have hcases := continueSteppingFormula_cases
    (registerToolCall solver tc.function.name) tc.function.name
    (heartbeatOf env tc)
  refine ⟨handleResultOf env tc solver,
    handleAIResponse_ok env tc rest u solver, rfl, rfl,
    hcases.1, hcases.2.1, hcases.2.2, ?_⟩
  intro hterm hreq hc
  have h : isTerminalTool (registerToolCall solver tc.function.name)
      tc.function.name = false := by
    simp only [isTerminalTool, registerToolCall]
    rw [hreq]
    simp
  exact hcases.2.1 h hc

/-- C1 witness: the theorem applied to a rule set in which tool t is
terminal, requires r before exit, and has a ContinueTool rule, at a turn in
which r was never called: the stop check does not fire and the ContinueTool
forcing wins, so the step continues. -/
theorem c1_witness :
    ∃ r, handleAIResponse witAgentEnv ⟨[⟨⟨some [witToolCall]⟩⟩], ⟨5, 7, 12⟩⟩
      witSolver = Except.ok r ∧ r.continue_stepping = true := by
  obtain ⟨r, heq, hs, -, -, -, -, hwin⟩ :=
    c1_continue_stepping_resolution witAgentEnv witToolCall [] ⟨5, 7, 12⟩ witSolver
  refine ⟨r, heq, hwin (by decide) (by decide) (Or.inr ?_)⟩
  rw [hs]
  decide

/-- C6: tool execution never raises to the step loop — an unknown tool name
yields the formatted not-found failure with a false success flag, an
internal exception of the external machinery is caught and formatted with a
false success flag, a normal return is passed through with a true success
flag, and a tool-not-found outcome still flows through handleAIResponse as
a normal result: the failure tool-result message is persisted and the
continue-stepping computation still runs. -/
theorem c6_tool_execution_never_raises :
    (∀ (tools : List Tool) (ex : ExternalExec) (n : String) (args : ArgMap),
      tools.find? (fun t => t.name == n) = none →
      executeTool tools ex n args = ("Tool not found: " ++ n, false)) ∧
    (∀ (tools : List Tool) (ex : ExternalExec) (n : String) (args : ArgMap)
      (t : Tool) (e : String),
      tools.find? (fun t2 => t2.name == n) = some t →
      ex.run n args = Except.error e →
      executeTool tools ex n args = ("Failed to call tool. Error: " ++ e, false)) ∧
    (∀ (tools : List Tool) (ex : ExternalExec) (n : String) (args : ArgMap)
      (t : Tool) (res : String),
      tools.find? (fun t2 => t2.name == n) = some t →
      ex.run n args = Except.ok res →
      executeTool tools ex n args = (res, true)) ∧
    (∀ (env : AgentEnv) (tc : ToolCallItem) (rest : List ToolCallItem)
      (u : ChatUsage) (solver : ToolRulesSolver),
      env.tools.find? (fun t => t.name == tc.function.name) = none →
      ∃ r, handleAIResponse env ⟨[⟨⟨some (tc :: rest)⟩⟩], u⟩ solver =
          Except.ok r ∧
        PMessage.toolReturnMsg (tcIdOf tc)
          ("Tool not found: " ++ tc.function.name) false ∈ r.persisted ∧
        r.continue_stepping =
          continueSteppingFormula (registerToolCall solver tc.function.name)
            tc.function.name (heartbeatOf env tc)) := by
  refine ⟨?_, ?_, ?_, ?_⟩
  · intro tools ex n args h
    simp [executeTool, h]
  · intro tools ex n args t e hf he
    simp [executeTool, hf, he]
  · intro tools ex n args t res hf he
    simp [executeTool, hf, he]
  · intro env tc rest u solver h
    refine ⟨handleResultOf env tc solver,
      handleAIResponse_ok env tc rest u solver, ?_, rfl⟩
    simp [handleResultOf, executeTool, h, createToolCallMessages, tcIdOf]

/-- C6 witness: the parts of the theorem applied at concrete inputs — an
unknown tool, a raising execution, and a response calling the unknown tool
bar. -/
theorem c6_witness :
    executeTool [⟨"t", ToolType.custom⟩] ⟨fun _ _ => Except.ok "done"⟩ "bar" [] =
      ("Tool not found: " ++ "bar", false) ∧
    executeTool [⟨"t", ToolType.custom⟩] ⟨fun _ _ => Except.error "boom"⟩ "t" [] =
      ("Failed to call tool. Error: " ++ "boom", false) ∧
    ∃ r, handleAIResponse witAgentEnv
        ⟨[⟨⟨some [⟨none, ⟨"bar", "x"⟩⟩]⟩⟩], ⟨1, 2, 3⟩⟩ ⟨[], []⟩ = Except.ok r ∧
      PMessage.toolReturnMsg (tcIdOf ⟨none, ⟨"bar", "x"⟩⟩)
        ("Tool not found: " ++ "bar") false ∈ r.persisted ∧
      r.continue_stepping =
        continueSteppingFormula (registerToolCall ⟨[], []⟩ "bar") "bar"
          (heartbeatOf witAgentEnv ⟨none, ⟨"bar", "x"⟩⟩) :=
  ⟨c6_tool_execution_never_raises.1 [⟨"t", ToolType.custom⟩]
      ⟨fun _ _ => Except.ok "done"⟩ "bar" [] rfl,
    c6_tool_execution_never_raises.2.1 [⟨"t", ToolType.custom⟩]
      ⟨fun _ _ => Except.error "boom"⟩ "t" [] ⟨"t", ToolType.custom⟩ "boom" rfl rfl,
    c6_tool_execution_never_raises.2.2.2 witAgentEnv ⟨none, ⟨"bar", "x"⟩⟩ []
      ⟨1, 2, 3⟩ ⟨[], []⟩ rfl⟩

end LettaVerif
